import Mathlib

/-!
Verification development for the `testbook` client layer
(`testbook/client.py` and `testbook/testbooknode.py`).

The Python code is shallowly embedded: notebook documents, cells and
output records become Lean structures; each method becomes a Lean
function translated statement by statement from the source.  Python
exceptions are modelled with `Except`; methods that only read the
notebook additionally return the (unchanged) notebook state, so that
frame properties can be stated.  The external executor
(`nbclient.NotebookClient.execute_cell`) is a parameter
`ex : Cell → Int → Cell`; every call the glue code makes to it is
recorded in a trace, so that delegation claims can be stated.
-/

namespace Testbook

/-- A Python value as it appears in argument lists and MIME payloads:
`None`, booleans, ints, strings, lists and string-keyed dicts.  This is
the JSON-able fragment that `json.dumps` accepts. -/
inductive PyObj where
  | none
  | bool (b : Bool)
  | int (i : Int)
  | str (s : String)
  | list (xs : List PyObj)
  | dict (kvs : List (String × PyObj))
deriving Repr

/-- Minimal JSON escaping of a character inside a string literal,
modelling what `json.dumps` does to the characters that can appear in
our `PyObj.str` values (quote, backslash and common control characters). -/
def jsonEscapeChar (c : Char) : String :=
  if c = '"' then "\\\""
  else if c = '\\' then "\\\\"
  else if c = '\n' then "\\n"
  else if c = '\t' then "\\t"
  else if c = '\r' then "\\r"
  else String.singleton c

/-- JSON escaping of a whole string body. -/
def jsonEscape (s : String) : String :=
  String.join (s.toList.map jsonEscapeChar)

mutual
/-- Modelled from `json.dumps` restricted to the `PyObj` fragment:
renders a Python value as JSON text.  (`json.dumps` separates list and
dict items with a comma and a space by default.) -/
def jsonDumps : PyObj → String
  | .none => "null"
  | .bool true => "true"
  | .bool false => "false"
  | .int i => toString i
  | .str s => "\"" ++ jsonEscape s ++ "\""
  | .list xs => "[" ++ ", ".intercalate (jsonDumpsList xs) ++ "]"
  | .dict kvs => "\x7b" ++ ", ".intercalate (jsonDumpsPairs kvs) ++ "\x7d"

/-- `jsonDumps` mapped over a list of values. -/
def jsonDumpsList : List PyObj → List String
  | [] => []
  | x :: xs => jsonDumps x :: jsonDumpsList xs

/-- `jsonDumps` mapped over the key/value pairs of a dict. -/
def jsonDumpsPairs : List (String × PyObj) → List String
  | [] => []
  | (k, v) :: kvs => ("\"" ++ jsonEscape k ++ "\": " ++ jsonDumps v) :: jsonDumpsPairs kvs
end

/-- One output record of a notebook cell (`nbformat` output node).
`output_type` is the record kind tag (e.g. `"execute_result"`,
`"stream"`); `data` is the MIME-type-to-payload mapping carried by
`execute_result`/`display_data` records (`output["data"]`); `text` is
`some t` exactly when the record has a `"text"` key (stream outputs),
carrying the literal text fragment `t`. -/
structure Output where
  output_type : String
  data : List (String × PyObj)
  text : Option String
deriving Repr

/-- Cell metadata.  Only the `"tags"` entry is ever read by this code:
`tags = some l` models a metadata dict that has a `"tags"` key holding
the list `l`, and `tags = none` models a metadata dict without that key. -/
structure Metadata where
  tags : Option (List String)
deriving Repr, DecidableEq

/-- A notebook cell: its kind, source text, metadata and output records. -/
structure Cell where
  cell_type : String
  source : String
  metadata : Metadata
  outputs : List Output
deriving Repr

instance : Inhabited Cell := ⟨⟨"code", "", ⟨Option.none⟩, []⟩⟩

/-- A notebook document: the ordered sequence of its cells (`nb["cells"]`). -/
structure Notebook where
  cells : List Cell
deriving Repr

instance {ε α : Type} [DecidableEq ε] [DecidableEq α] : DecidableEq (Except ε α)
  | .error a, .error b =>
    if h : a = b then .isTrue (by rw [h]) else .isFalse (fun hh => h (Except.error.inj hh))
  | .error _, .ok _ => .isFalse (fun hh => Except.noConfusion hh)
  | .ok _, .error _ => .isFalse (fun hh => Except.noConfusion hh)
  | .ok a, .ok b =>
    if h : a = b then .isTrue (by rw [h]) else .isFalse (fun hh => h (Except.ok.inj hh))

/-- The exceptions this code can raise or propagate:
`TypeError`, `CellTagNotFoundError` (a `LookupError` subclass),
`ValueError`, `IndexError`, `KeyError`, `AttributeError`. -/
inductive TBErr where
  | typeError (msg : String)
  | cellTagNotFound (msg : String)
  | valueError (msg : String)
  | indexError (msg : String)
  | keyError (key : String)
  | attributeError (msg : String)
deriving Repr, DecidableEq

/-- A Python value used as a cell selector: an `int`, a `str`, or a
value of any other type (`other` carries only the name Python would
print for its type). -/
inductive PyVal where
  | int (i : Int)
  | str (s : String)
  | other (tyname : String)
deriving Repr, DecidableEq

/-- `isinstance(x, str)` for a selector value. -/
def PyVal.isStr : PyVal → Bool
  | .str _ => true
  | _ => false

/-- The argument of `execute_cell`: either a single selector or a list
of selectors (the source first wraps a non-list argument into a
one-element list). -/
inductive ExecArg where
  | single (v : PyVal)
  | list (vs : List PyVal)
deriving Repr, DecidableEq

/-- The return value of `execute_cell`: the single executed cell when
exactly one was executed, otherwise the list of executed cells. -/
inductive ExecRet where
  | one (c : Cell)
  | many (cs : List Cell)
deriving Repr

/-- `cell["metadata"]` has a `"tags"` key and `tag` is a member of the
list stored there — the test of the scan in `_get_cell_index`. -/
def cellHasTag (c : Cell) (tag : String) : Bool :=
  match c.metadata.tags with
  | some tags => tags.contains tag
  | none => false

/-- The `for idx, cell in enumerate(self.nb["cells"])` loop of
`_get_cell_index`: first index (counting from `idx`) of a cell carrying
the tag. -/
def findTagLoop (cells : List Cell) (tag : String) (idx : Nat) : Option Nat :=
  match cells with
  | [] => Option.none
  | c :: rest => if cellHasTag c tag then some idx else findTagLoop rest tag (idx + 1)

/-- `TestbookNotebookClient._get_cell_index`: an `int` argument is
returned unchanged; a `str` argument is resolved by the linear scan,
raising `CellTagNotFoundError` when no cell carries it; any other
argument raises `TypeError`.  The second component is the notebook
state when the call returns or raises (the method never writes to it). -/
def getCellIndex (nb : Notebook) (tag : PyVal) : Except TBErr Int × Notebook :=
  match tag with
  | .int i => (.ok i, nb)
  | .str s =>
    match findTagLoop nb.cells s 0 with
    | some idx => (.ok (Int.ofNat idx), nb)
    | Option.none => (.error (.cellTagNotFound ("Cell tag \x27" ++ s ++ "\x27 not found")), nb)
  | .other _ => (.error (.typeError "expected tag as str"), nb)

/-- Python list subscription `cells[v]`: an `int` index selects an
element (negative indices count from the end, out-of-range raises
`IndexError`); any non-`int` subscript raises `TypeError`.  Returns the
selected cell together with the original `int` index. -/
def pyListGet (cells : List Cell) : PyVal → Except TBErr (Cell × Int)
  | .int i =>
    let j : Int := if i < 0 then (cells.length : Int) + i else i
    if j < 0 then .error (.indexError "list index out of range")
    else
      match cells[j.toNat]? with
      | some c => .ok (c, i)
      | Option.none => .error (.indexError "list index out of range")
  | .str _ => .error (.typeError "list indices must be integers or slices, not str")
  | .other t => .error (.typeError ("list indices must be integers or slices, not " ++ t))

/-- The `for idx in cell_indexes` loop of `execute_cell`: look each
index up in `nb["cells"]`, hand the cell and its index to the external
executor, and collect the executed cells.  The second component is the
trace of executor calls made (in order), kept also when a lookup raises
part-way. -/
def execLoop (nb : Notebook) (ex : Cell → Int → Cell) :
    List PyVal → Except TBErr (List Cell) × List (Cell × Int)
  | [] => (.ok [], [])
  | v :: rest =>
    match pyListGet nb.cells v with
    | .error e => (.error e, [])
    | .ok (c, i) =>
      match execLoop nb ex rest with
      | (.ok cs, t) => (.ok (ex c i :: cs), (c, i) :: t)
      | (.error e, t) => (.error e, (c, i) :: t)

/-- `executed_cells[0] if len(executed_cells) == 1 else executed_cells`. -/
def retOf (cs : List Cell) : ExecRet :=
  match cs with
  | [c] => .one c
  | _ => .many cs

/-- `TestbookNotebookClient.execute_cell`: wrap a non-list argument in a
list; when every element is a `str`, resolve each tag to an index with
`_get_cell_index`; run the execution loop; return the single executed
cell or the list.  The second component is the executor-call trace. -/
def executeCell (nb : Notebook) (ex : Cell → Int → Cell) (arg : ExecArg) :
    Except TBErr ExecRet × List (Cell × Int) :=
  let cellList : List PyVal :=
    match arg with
    | .single v => [v]
    | .list vs => vs
  let cellIndexes : Except TBErr (List PyVal) :=
    if cellList.all PyVal.isStr then
      (cellList.mapM (fun v => (getCellIndex nb v).1)).map (List.map PyVal.int)
    else
      .ok cellList
  match cellIndexes with
  | .error e => (.error e, [])
  | .ok idxs =>
    match execLoop nb ex idxs with
    | (.ok cs, t) => (.ok (retOf cs), t)
    | (.error e, t) => (.error e, t)

/-- The `for output in outputs` accumulation shared by
`cell_output_text` and `TestbookNode.output_text`: concatenate, in
order, the `"text"` entry of every output record that has one. -/
def outputsText (outputs : List Output) : String :=
  outputs.foldl (fun acc o => match o.text with | some t => acc ++ t | Option.none => acc) ""

/-- Python `str.strip()` whitespace test: space, tab, newline, carriage
return, vertical tab, form feed. -/
def pyWS (c : Char) : Bool :=
  c = ' ' || c = '\t' || c = '\n' || c = '\r' || c = '\x0b' || c = '\x0c'

/-- Python `str.strip()`: drop leading and trailing whitespace
(computed over the character list of the string). -/
def pyStrip (s : String) : String :=
  String.mk (((s.toList.dropWhile pyWS).reverse.dropWhile pyWS).reverse)

/-- `TestbookNotebookClient.cell_output_text`: a `str` selector is
resolved to an index with `_get_cell_index`, any other selector is used
directly as the list subscript; the selected cell's text-carrying
output fragments are concatenated and the result stripped.  The second
component is the notebook state when the call returns or raises (the
method never writes to it). -/
def cellOutputText (nb : Notebook) (cell : PyVal) : Except TBErr String × Notebook :=
  let cellIndex : Except TBErr PyVal :=
    match cell with
    | .str s => ((getCellIndex nb (.str s)).1).map PyVal.int
    | v => .ok v
  match cellIndex with
  | .error e => (.error e, nb)
  | .ok idx =>
    match pyListGet nb.cells idx with
    | .error e => (.error e, nb)
    | .ok (c, _) => (.ok (pyStrip (outputsText c.outputs)), nb)

/-- `TestbookNotebookClient._execute_result`: `None` propagates as
`None`; otherwise the `"data"` mapping of every `execute_result` output,
in order.  The second component is the outputs argument as it stands
when the call returns (the method never writes to it). -/
def executeResult (outputs : Option (List Output)) :
    Option (List (List (String × PyObj))) × Option (List Output) :=
  match outputs with
  | Option.none => (Option.none, Option.none)
  | some outs =>
    (some ((outs.filter (fun o => o.output_type == "execute_result")).map (fun o => o.data)),
     some outs)

/-- `TestbookNode.output_text`: same concatenate-and-strip computation
as `cell_output_text`, over the node's own outputs. -/
def nodeOutputText (c : Cell) : String :=
  pyStrip (outputsText c.outputs)

/-- `TestbookNode.execute_result`: the `"data"` mapping of every
`execute_result` output of the node, in order. -/
def nodeExecuteResult (c : Cell) : List (List (String × PyObj)) :=
  (c.outputs.filter (fun o => o.output_type == "execute_result")).map (fun o => o.data)

/-- The whitespace prefix of a line (`line[:len(line)-len(line.lstrip())]`
in `textwrap.dedent`). -/
def leadingWS (s : String) : String :=
  String.mk (s.toList.takeWhile Char.isWhitespace)

/-- Longest common prefix of two strings, as lists of characters — the
margin-narrowing step of `textwrap.dedent`. -/
def lcpChars : List Char → List Char → List Char
  | a :: as, b :: bs => if a = b then a :: lcpChars as bs else []
  | _, _ => []

/-- Longest common prefix of two strings. -/
def lcpStr (a b : String) : String :=
  String.mk (lcpChars a.toList b.toList)

/-- Modelled from `textwrap.dedent`: the margin is the longest common
whitespace prefix of all lines that are not whitespace-only; the margin
is then removed from the front of every line that starts with it. -/
def dedent (text : String) : String :=
  let lines := text.splitOn "\n"
  let indents := (lines.filter (fun l => ¬ (l.toList.all Char.isWhitespace))).map leadingWS
  let margin :=
    match indents with
    | [] => ""
    | h :: t => t.foldl lcpStr h
  if margin = "" then text
  else
    "\n".intercalate
      (lines.map (fun l => if String.isPrefixOf margin l then l.drop margin.length else l))

/-- The `code` argument of `inject`: a string of code, a `Callable`
(modelled by its `__name__` and the source text that
`inspect.getsource` returns for it), or a value of any other type. -/
inductive Code where
  | str (s : String)
  | func (name : String) (source : String)
  | other (tyname : String)
deriving Repr

/-- `', '.join(map(json.dumps, args)) if args else ''`: the `None` and
the empty-tuple argument list both render as the empty string. -/
def argsStr (args : Option (List PyObj)) : String :=
  match args with
  | Option.none => ""
  | some [] => ""
  | some l => ", ".intercalate (l.map jsonDumps)

/-- The `if/elif/else` at the top of `inject` that builds the cell
source `lines`: a string is dedented; a function contributes its source
followed by a dedented comment-plus-call block with JSON-encoded
arguments; anything else raises `TypeError`. -/
def buildLines (code : Code) (args : Option (List PyObj)) : Except TBErr String :=
  match code with
  | .str s => .ok (dedent s)
  | .func name source =>
    .ok (source ++
      dedent ("\n                # Calling " ++ name ++ "\n                "
        ++ name ++ "(" ++ argsStr args ++ ")\n            "))
  | .other _ => .error (.typeError "can only inject function or code block as str")

/-- `nbformat.v4.new_code_cell`: a fresh code cell with the given
source, empty metadata and no outputs. -/
def new_code_cell (source : String) : Cell :=
  ⟨"code", source, ⟨Option.none⟩, []⟩

/-- `TestbookNotebookClient.inject` as written in the source: build the
cell source (raising `TypeError` for an uninjectable argument), execute
the pre-run cells when given, create the code cell — and then fall off
the end of the function body: the created cell is never handed to the
executor and the method returns `None` (modelled as `Option.none`).
The second component is the executor-call trace (only pre-run cells can
contribute to it). -/
def inject (nb : Notebook) (ex : Cell → Int → Cell) (code : Code)
    (args : Option (List PyObj)) (prerun : Option ExecArg) :
    Except TBErr (Option Cell) × List (Cell × Int) :=
  match buildLines code args with
  | .error e => (.error e, [])
  | .ok lines =>
    let prerunRes : Except TBErr Unit × List (Cell × Int) :=
      match prerun with
      | Option.none => (.ok (), [])
      | some arg =>
        match executeCell nb ex arg with
        | (.ok _, t) => (.ok (), t)
        | (.error e, t) => (.error e, t)
    match prerunRes with
    | (.error e, t) => (.error e, t)
    | (.ok _, t) =>
      let _inject_cell := new_code_cell lines
      (.ok Option.none, t)

/-- Python truthiness test `not x` for the result of `_execute_result`:
`None` and the empty list are falsy. -/
def isFalsy (r : Option (List (List (String × PyObj)))) : Bool :=
  match r with
  | Option.none => true
  | some l => l.isEmpty

/-- The literal code string built inside `value` (a triple-quoted
string: newline, two 8-space-indented lines, a trailing 8-space line). -/
def valueCode : String :=
  "\n        from IPython.display import JSON\n        JSON(\x7b\"value\" : _\x7d)\n        "

/-- Python subscription `obj[key]` with a string key: a dict looks the
key up (raising `KeyError` when absent); any non-dict raises
`TypeError`. -/
def pyGetKey (obj : PyObj) (key : String) : Except TBErr PyObj :=
  match obj with
  | .dict kvs =>
    match kvs.lookup key with
    | some v => .ok v
    | Option.none => .error (.keyError key)
  | _ => .error (.typeError "object is not subscriptable with str")

/-- `TestbookNotebookClient.value` as written in the source: inject the
variable name; read `.outputs` off the result (an `AttributeError` when
the injection returned `None`); raise `ValueError` when there is no
`execute_result`; inject the JSON-display code; and unwrap
`cell.outputs[0].data["application/json"]["value"]`. -/
def value (nb : Notebook) (ex : Cell → Int → Cell) (name : String) : Except TBErr PyObj :=
  match (inject nb ex (.str name) Option.none Option.none).1 with
  | .error e => .error e
  | .ok result =>
    match result with
    | Option.none => .error (.attributeError "NoneType object has no attribute outputs")
    | some res =>
      if isFalsy (executeResult (some res.outputs)).1 then
        .error (.valueError "code provided does not produce execute_result")
      else
        match (inject nb ex (.str valueCode) Option.none Option.none).1 with
        | .error e => .error e
        | .ok Option.none => .error (.attributeError "NoneType object has no attribute outputs")
        | .ok (some cell) =>
          match cell.outputs[0]? with
          | Option.none => .error (.indexError "list index out of range")
          | some o =>
            match (o.data).lookup "application/json" with
            | Option.none => .error (.keyError "application/json")
            | some j =>
              match pyGetKey j "value" with
              | .error e => .error e
              | .ok v => .ok v

/-! ## Specification-side definitions

These follow the words of the specification and the claims, to be
compared with the translated code above. -/

/-- Spec: "the concatenation, in output order, of the literal-text
fragments of all of the cell's text-carrying output records". -/
def specConcat (outputs : List Output) : String :=
  String.join (outputs.filterMap (fun o => o.text))

/-- Spec: the tag is carried by at least one cell of the notebook. -/
def tagFound (nb : Notebook) (tag : String) : Prop :=
  ∃ c ∈ nb.cells, cellHasTag c tag

instance (nb : Notebook) (tag : String) : Decidable (tagFound nb tag) := by
  unfold tagFound; infer_instance

/-- Spec: "the index of the first cell whose metadata tags contain the
tag". -/
def tagIdx (nb : Notebook) (tag : String) : Nat :=
  nb.cells.findIdx (fun c => cellHasTag c tag)

/-- The cell stored at a (non-negative, in-range) index. -/
def cellAt (nb : Notebook) (i : Int) : Cell :=
  nb.cells.getD i.toNat default

/-- Execution with every selector used directly as a list subscript and
no tag resolution at all: the loop of `execute_cell` run on the raw
selector list. -/
def executeDirect (nb : Notebook) (ex : Cell → Int → Cell) (vs : List PyVal) :
    Except TBErr ExecRet × List (Cell × Int) :=
  match execLoop nb ex vs with
  | (.ok cs, t) => (.ok (retOf cs), t)
  | (.error e, t) => (.error e, t)

/-! ## Helper lemmas -/

theorem findTagLoop_of_not_found {cells : List Cell} {t : String}
    (h : ∀ c ∈ cells, cellHasTag c t = false) (k : Nat) :
    findTagLoop cells t k = Option.none := by
  induction cells generalizing k with
  | nil => rfl
  | cons c rest ih =>
    have hc : cellHasTag c t = false := h c (List.mem_cons_self c rest)
    simp only [findTagLoop, hc, if_false]
    exact ih (fun c' hc' => h c' (List.mem_cons_of_mem c hc')) (k + 1)

theorem findTagLoop_of_found {cells : List Cell} {t : String}
    (h : ∃ c ∈ cells, cellHasTag c t = true) (k : Nat) :
    findTagLoop cells t k = some (k + cells.findIdx (fun c => cellHasTag c t)) := by
  induction cells generalizing k with
  | nil => simp at h
  | cons c rest ih =>
    by_cases hc : cellHasTag c t = true
    · simp [findTagLoop, hc, List.findIdx_cons]
    · have hrest : ∃ c' ∈ rest, cellHasTag c' t = true := by
        rcases h with ⟨c', hc', ht'⟩
        rcases List.mem_cons.mp hc' with rfl | hmem
        · exact absurd ht' hc
        · exact ⟨c', hmem, ht'⟩
      have hcf : cellHasTag c t = false := by
        cases hcc : cellHasTag c t
        · rfl
        · exact absurd hcc hc
      simp only [findTagLoop, hcf, if_false, List.findIdx_cons, cond_false]
      rw [ih hrest (k + 1)]
      exact congrArg some (by omega)

theorem getCellIndex_int (nb : Notebook) (i : Int) :
    getCellIndex nb (.int i) = (.ok i, nb) := rfl

theorem getCellIndex_found {nb : Notebook} {t : String} (h : tagFound nb t) :
    getCellIndex nb (.str t) = (.ok (Int.ofNat (tagIdx nb t)), nb) := by
  have : findTagLoop nb.cells t 0 = some (0 + nb.cells.findIdx (fun c => cellHasTag c t)) :=
    findTagLoop_of_found h 0
  simp only [getCellIndex, this, Nat.zero_add]
  rfl

theorem getCellIndex_not_found {nb : Notebook} {t : String}
    (h : ∀ c ∈ nb.cells, cellHasTag c t = false) :
    getCellIndex nb (.str t) =
      (.error (.cellTagNotFound ("Cell tag \x27" ++ t ++ "\x27 not found")), nb) := by
  simp only [getCellIndex, findTagLoop_of_not_found h 0]

theorem tagIdx_lt_length {nb : Notebook} {t : String} (h : tagFound nb t) :
    tagIdx nb t < nb.cells.length :=
  List.findIdx_lt_length_of_exists h

theorem pyListGet_int {cells : List Cell} {i : Int}
    (h0 : 0 ≤ i) (hlt : i.toNat < cells.length) :
    pyListGet cells (.int i) = .ok (cells.getD i.toNat default, i) := by
  have hneg : ¬ i < 0 := by omega
  simp only [pyListGet, if_neg hneg]
  rw [List.getElem?_eq_getElem hlt]
  simp [List.getD_eq_getElem?_getD, List.getElem?_eq_getElem hlt]

theorem execLoop_ints {nb : Notebook} (ex : Cell → Int → Cell) {idxs : List Int}
    (h : ∀ i ∈ idxs, 0 ≤ i ∧ i.toNat < nb.cells.length) :
    execLoop nb ex (idxs.map PyVal.int) =
      (.ok (idxs.map (fun i => ex (cellAt nb i) i)),
       idxs.map (fun i => (cellAt nb i, i))) := by
  induction idxs with
  | nil => rfl
  | cons i rest ih =>
    have hi := h i (List.mem_cons_self i rest)
    have hrest : ∀ j ∈ rest, 0 ≤ j ∧ j.toNat < nb.cells.length :=
      fun j hj => h j (List.mem_cons_of_mem i hj)
    simp only [List.map_cons, execLoop, pyListGet_int hi.1 hi.2, ih hrest, cellAt]

theorem mapM_getCellIndex_strs {nb : Notebook} {ss : List String}
    (h : ∀ s ∈ ss, tagFound nb s) :
    (ss.map PyVal.str).mapM (fun v => (getCellIndex nb v).1) =
      .ok (ss.map (fun s => Int.ofNat (tagIdx nb s))) := by
  induction ss with
  | nil => rfl
  | cons s rest ih =>
    have hs := h s (List.mem_cons_self s rest)
    have hrest : ∀ s' ∈ rest, tagFound nb s' :=
      fun s' hs' => h s' (List.mem_cons_of_mem s hs')
    simp only [List.map_cons, List.mapM_cons, getCellIndex_found hs, ih hrest]
    rfl

theorem all_isStr_map_str (ss : List String) :
    (ss.map PyVal.str).all PyVal.isStr = true := by
  induction ss with
  | nil => rfl
  | cons s rest ih =>
    simp only [List.map_cons, List.all_cons, PyVal.isStr, Bool.true_and]
    exact ih

theorem outputsText_foldl_acc (outs : List Output) (acc : String) :
    outs.foldl (fun a o => match o.text with | some t => a ++ t | Option.none => a) acc =
      (outs.filterMap (fun o => o.text)).foldl (fun r s => r ++ s) acc := by
  induction outs generalizing acc with
  | nil => rfl
  | cons o rest ih =>
    cases ht : o.text with
    | none =>
      simp only [List.foldl_cons, ht, List.filterMap_cons]
      exact ih acc
    | some t =>
      simp only [List.foldl_cons, ht, List.filterMap_cons]
      exact ih (acc ++ t)

theorem outputsText_eq_specConcat (outs : List Output) :
    outputsText outs = specConcat outs :=
  outputsText_foldl_acc outs ""

theorem executeCell_ints {nb : Notebook} (ex : Cell → Int → Cell) {idxs : List Int}
    (h : ∀ i ∈ idxs, 0 ≤ i ∧ i.toNat < nb.cells.length) :
    executeCell nb ex (.list (idxs.map PyVal.int)) =
      (.ok (retOf (idxs.map (fun i => ex (cellAt nb i) i))),
       idxs.map (fun i => (cellAt nb i, i))) := by
  cases idxs with
  | nil => rfl
  | cons i rest =>
    have hall : ((i :: rest).map PyVal.int).all PyVal.isStr = false := by
      simp [PyVal.isStr]
    simp only [executeCell, hall, Bool.false_eq_true, if_false, execLoop_ints ex h]

theorem executeCell_strs {nb : Notebook} (ex : Cell → Int → Cell) {ss : List String}
    (h : ∀ s ∈ ss, tagFound nb s) :
    executeCell nb ex (.list (ss.map PyVal.str)) =
      (.ok (retOf (ss.map (fun s =>
          ex (cellAt nb (Int.ofNat (tagIdx nb s))) (Int.ofNat (tagIdx nb s))))),
       ss.map (fun s => (cellAt nb (Int.ofNat (tagIdx nb s)), Int.ofNat (tagIdx nb s)))) := by
  have hall := all_isStr_map_str ss
  have hmap := mapM_getCellIndex_strs h
  have hbounds : ∀ i ∈ ss.map (fun s => Int.ofNat (tagIdx nb s)),
      0 ≤ i ∧ i.toNat < nb.cells.length := by
    intro i hi
    rcases List.mem_map.mp hi with ⟨s, hs, rfl⟩
    constructor
    · exact Int.ofNat_nonneg _
    · simpa using tagIdx_lt_length (h s hs)
  have hloop := execLoop_ints ex hbounds
  simp only [executeCell, hall, if_true, hmap, Except.map]
  rw [hloop]
  simp [List.map_map, Function.comp_def]

theorem retOf_of_length_ne_one {cs : List Cell} (h : cs.length ≠ 1) :
    retOf cs = .many cs := by
  match cs with
  | [] => rfl
  | [c] => simp at h
  | a :: b :: rest => rfl

/-! ## Concrete fixtures -/

/-- A stream output carrying the text fragment `" hi\n"`. -/
def sampleOutput : Output := ⟨"stream", [], some " hi\n"⟩

/-- An `execute_result` output with a `text/plain` payload. -/
def sampleResult : Output := ⟨"execute_result", [("text/plain", PyObj.str "2")], Option.none⟩

/-- A cell tagged `"setup"` with one stream output. -/
def sampleCell0 : Cell := ⟨"code", "x = 1", ⟨some ["setup"]⟩, [sampleOutput]⟩

/-- A cell tagged `"compute"` with one `execute_result` output. -/
def sampleCell1 : Cell := ⟨"code", "x + 1", ⟨some ["compute"]⟩, [sampleResult]⟩

/-- A two-cell notebook fixture. -/
def sampleNb : Notebook := ⟨[sampleCell0, sampleCell1]⟩

/-- A concrete external executor (returns the cell unchanged). -/
def sampleEx : Cell → Int → Cell := fun c _ => c

/-! ## Claims -/

/-- C1: the claim says `inject` builds a new code cell, hands it to the
external executor for execution, and returns the executed cell.  As
written, the method builds the cell and then falls off the end of its
body: evaluated at the failing input `inject("1 + 1")`, the result is
`None` (no executed cell) and the executor-call trace is empty (the
cell was never handed to the executor), contradicting the method's own
docstring ("Injects code into the notebook and executes it", returns a
`TestbookNode`). -/
theorem claim_C1_inject_returns_none_without_executing :
    inject sampleNb sampleEx (Code.str "1 + 1") Option.none Option.none =
      (Except.ok Option.none, []) := rfl

/-- C2: the claim says `value` returns the JSON-compatible value of the
kernel variable.  Because `inject` returns `None`, the attribute access
`result.outputs` inside `value` raises `AttributeError` for every
variable name: evaluated at the failing input `value("x")`, the result
is that `AttributeError`, never a value. -/
theorem claim_C2_value_raises_attribute_error :
    value sampleNb sampleEx "x" =
      Except.error (TBErr.attributeError "NoneType object has no attribute outputs") := rfl

/-- C3: the claim says `value` raises `ValueError` when the injected
expression yields no `execute_result`.  The `ValueError` check is never
reached: `result.outputs` raises `AttributeError` first (the injection
returned `None`), so at the failing input `value("y")` on an empty
notebook the raised error is `AttributeError`, not `ValueError`. -/
theorem claim_C3_value_never_raises_value_error :
    value (Notebook.mk []) sampleEx "y" =
        Except.error (TBErr.attributeError "NoneType object has no attribute outputs") ∧
      ∀ m, value (Notebook.mk []) sampleEx "y" ≠ Except.error (TBErr.valueError m) := by
  constructor
  · rfl
  · intro m h
    rw [show value (Notebook.mk []) sampleEx "y" =
        Except.error (TBErr.attributeError "NoneType object has no attribute outputs")
        from rfl] at h
    exact absurd (Except.error.inj h) (by simp)

/-- C4: a tag carried by no cell of the notebook makes `_get_cell_index`
raise `CellTagNotFoundError` (a lookup error), hence `execute_cell` and
`cell_output_text` on that tag raise the same error (with no executor
call made), and the notebook document is unchanged by the failed
lookup. -/
theorem claim_C4_unknown_tag_lookup_error
    (nb : Notebook) (ex : Cell → Int → Cell) (t : String)
    (h : ∀ c ∈ nb.cells, cellHasTag c t = false) :
    getCellIndex nb (.str t) =
        (.error (.cellTagNotFound ("Cell tag \x27" ++ t ++ "\x27 not found")), nb) ∧
      executeCell nb ex (.single (.str t)) =
        (.error (.cellTagNotFound ("Cell tag \x27" ++ t ++ "\x27 not found")), []) ∧
      cellOutputText nb (.str t) =
        (.error (.cellTagNotFound ("Cell tag \x27" ++ t ++ "\x27 not found")), nb) := by
  have hg := getCellIndex_not_found h
  have hg1 : (getCellIndex nb (.str t)).1 =
      .error (.cellTagNotFound ("Cell tag \x27" ++ t ++ "\x27 not found")) := by rw [hg]
  refine ⟨hg, ?_, ?_⟩
  · simp only [executeCell, List.all_cons, List.all_nil, Bool.and_true, PyVal.isStr,
      if_true, List.mapM_cons, List.mapM_nil, hg1]
    rfl
  · simp only [cellOutputText, hg1, Except.map]

/-- C4 witness: the two-cell fixture carries no tag `"missing"`, and the
failed lookups behave as the theorem states. -/
theorem claim_C4_witness :
    (∀ c ∈ sampleNb.cells, cellHasTag c "missing" = false) ∧
      (getCellIndex sampleNb (.str "missing") =
          (.error (.cellTagNotFound ("Cell tag \x27" ++ "missing" ++ "\x27 not found")),
           sampleNb) ∧
        executeCell sampleNb sampleEx (.single (.str "missing")) =
          (.error (.cellTagNotFound ("Cell tag \x27" ++ "missing" ++ "\x27 not found")), []) ∧
        cellOutputText sampleNb (.str "missing") =
          (.error (.cellTagNotFound ("Cell tag \x27" ++ "missing" ++ "\x27 not found")),
           sampleNb)) :=
  ⟨by decide, claim_C4_unknown_tag_lookup_error sampleNb sampleEx "missing" (by decide)⟩

/-- C5: tag resolution is the linear scan over the ordered cell
sequence: an `int` argument is returned unchanged, and a tag carried by
at least one cell resolves to the index of the first cell whose
metadata tags contain it (`List.findIdx` over the cell sequence). -/
theorem claim_C5_tag_resolution_linear_scan
    (nb : Notebook) (t : String) (h : tagFound nb t) :
    (∀ i : Int, getCellIndex nb (.int i) = (.ok i, nb)) ∧
      getCellIndex nb (.str t) = (.ok (Int.ofNat (tagIdx nb t)), nb) :=
  ⟨fun _ => rfl, getCellIndex_found h⟩

/-- C5 witness: on the two-cell fixture, the tag `"compute"` is present
and resolves to the first (and only) cell carrying it. -/
theorem claim_C5_witness :
    tagFound sampleNb "compute" ∧
      ((∀ i : Int, getCellIndex sampleNb (.int i) = (.ok i, sampleNb)) ∧
        getCellIndex sampleNb (.str "compute") =
          (.ok (Int.ofNat (tagIdx sampleNb "compute")), sampleNb)) :=
  ⟨by decide, claim_C5_tag_resolution_linear_scan sampleNb "compute" (by decide)⟩

/-- C6 counterexample: the claim says `cell_output_text` returns exactly
the concatenation of the literal-text fragments and nothing else; on a
cell whose single fragment is `" hi\n"` the concatenation is `" hi\n"`
but the method returns the stripped string `"hi"`. -/
theorem claim_C6_counterexample :
    specConcat sampleCell0.outputs = " hi\n" ∧
      (cellOutputText sampleNb (.int 0)).1 = Except.ok "hi" ∧
      (Except.ok "hi" : Except TBErr String) ≠ Except.ok " hi\n" :=
  ⟨rfl, rfl, by decide⟩

/-- C6 (amended): for every cell selected by a valid index or by a
present tag, `cell_output_text` returns the concatenation, in output
order, of the literal-text fragments of the cell's text-carrying output
records, with leading and trailing whitespace stripped; and
`TestbookNode.output_text` computes the same stripped concatenation. -/
theorem claim_C6_output_text_strip_concat
    (nb : Notebook) (i : Int) (h0 : 0 ≤ i) (hlt : i.toNat < nb.cells.length)
    (t : String) (ht : tagFound nb t) :
    (cellOutputText nb (.int i)).1 = .ok (pyStrip (specConcat (cellAt nb i).outputs)) ∧
      (cellOutputText nb (.str t)).1 =
        .ok (pyStrip (specConcat (cellAt nb (Int.ofNat (tagIdx nb t))).outputs)) ∧
      ∀ c : Cell, nodeOutputText c = pyStrip (specConcat c.outputs) := by
  refine ⟨?_, ?_, ?_⟩
  · simp only [cellOutputText, pyListGet_int h0 hlt, outputsText_eq_specConcat, cellAt]
  · have hg1 : (getCellIndex nb (.str t)).1 = .ok (Int.ofNat (tagIdx nb t)) := by
      rw [getCellIndex_found ht]
    have h0t : (0 : Int) ≤ Int.ofNat (tagIdx nb t) := Int.ofNat_nonneg _
    have hltt : (Int.ofNat (tagIdx nb t)).toNat < nb.cells.length := by
      simpa using tagIdx_lt_length ht
    simp only [cellOutputText, hg1, Except.map, pyListGet_int h0t hltt,
      outputsText_eq_specConcat, cellAt]
  · intro c
    simp only [nodeOutputText, outputsText_eq_specConcat]

/-- C6 witness: cell 1 of the fixture selected by index, and the cell
tagged `"setup"` selected by tag, both yield the stripped concatenation.
-/
theorem claim_C6_witness :
    (0 ≤ (1 : Int) ∧ (1 : Int).toNat < sampleNb.cells.length ∧ tagFound sampleNb "setup") ∧
      ((cellOutputText sampleNb (.int 1)).1 =
          .ok (pyStrip (specConcat (cellAt sampleNb 1).outputs)) ∧
        (cellOutputText sampleNb (.str "setup")).1 =
          .ok (pyStrip (specConcat (cellAt sampleNb
            (Int.ofNat (tagIdx sampleNb "setup"))).outputs)) ∧
        ∀ c : Cell, nodeOutputText c = pyStrip (specConcat c.outputs)) :=
  ⟨⟨by decide, by decide, by decide⟩,
   claim_C6_output_text_strip_concat sampleNb 1 (by decide) (by decide) "setup" (by decide)⟩

/-- C7 counterexample: the claim as stated covers every list of
integer-index and string-tag selectors; on the fixture the list
`[0, "compute"]` consists of a valid index and a present tag, yet
`execute_cell` raises `TypeError` instead of executing both cells and
returning them. -/
theorem claim_C7_counterexample :
    tagFound sampleNb "compute" ∧
      (executeCell sampleNb sampleEx (.list [.int 0, .str "compute"])).1 =
        Except.error (TBErr.typeError "list indices must be integers or slices, not str") :=
  ⟨by decide, rfl⟩

/-- C7 (amended): for every integer index, string tag, or list of
selectors that is either all integer indexes or all string tags,
`execute_cell` delegates execution of each selected cell in order to
the external executor (the call trace is exactly the selected cells
with their indexes, in selection order); the return value is the single
executed cell when exactly one cell was executed and the list of
executed cells in selection order otherwise; a single non-list selector
behaves as its one-element list. -/
theorem claim_C7_execute_cell_delegates
    (nb : Notebook) (ex : Cell → Int → Cell)
    (idxs : List Int) (hidx : ∀ i ∈ idxs, 0 ≤ i ∧ i.toNat < nb.cells.length)
    (ss : List String) (hss : ∀ s ∈ ss, tagFound nb s) (v : PyVal) :
    (executeCell nb ex (.list (idxs.map PyVal.int)) =
        (.ok (retOf (idxs.map (fun i => ex (cellAt nb i) i))),
         idxs.map (fun i => (cellAt nb i, i)))) ∧
      (executeCell nb ex (.list (ss.map PyVal.str)) =
        (.ok (retOf (ss.map (fun s =>
            ex (cellAt nb (Int.ofNat (tagIdx nb s))) (Int.ofNat (tagIdx nb s))))),
         ss.map (fun s => (cellAt nb (Int.ofNat (tagIdx nb s)), Int.ofNat (tagIdx nb s))))) ∧
      (executeCell nb ex (.single v) = executeCell nb ex (.list [v])) ∧
      (∀ c : Cell, retOf [c] = .one c) ∧
      (∀ cs : List Cell, cs.length ≠ 1 → retOf cs = .many cs) :=
  ⟨executeCell_ints ex hidx, executeCell_strs ex hss, rfl,
   fun _ => rfl, fun _ h => retOf_of_length_ne_one h⟩

/-- C7 witness: on the fixture, the index list `[1]` and the tag list
`["setup"]` are valid selections and behave as the theorem states. -/
theorem claim_C7_witness :
    ((∀ i ∈ ([1] : List Int), 0 ≤ i ∧ i.toNat < sampleNb.cells.length) ∧
        ∀ s ∈ (["setup"] : List String), tagFound sampleNb s) ∧
      ((executeCell sampleNb sampleEx (.list (([1] : List Int).map PyVal.int)) =
          (.ok (retOf (([1] : List Int).map (fun i => sampleEx (cellAt sampleNb i) i))),
           ([1] : List Int).map (fun i => (cellAt sampleNb i, i)))) ∧
        (executeCell sampleNb sampleEx (.list ((["setup"] : List String).map PyVal.str)) =
          (.ok (retOf ((["setup"] : List String).map (fun s =>
              sampleEx (cellAt sampleNb (Int.ofNat (tagIdx sampleNb s)))
                (Int.ofNat (tagIdx sampleNb s))))),
           (["setup"] : List String).map (fun s =>
             (cellAt sampleNb (Int.ofNat (tagIdx sampleNb s)),
              Int.ofNat (tagIdx sampleNb s))))) ∧
        (executeCell sampleNb sampleEx (.single (.int 0)) =
          executeCell sampleNb sampleEx (.list [.int 0])) ∧
        (∀ c : Cell, retOf [c] = .one c) ∧
        (∀ cs : List Cell, cs.length ≠ 1 → retOf cs = .many cs)) :=
  ⟨⟨by decide, by decide⟩,
   claim_C7_execute_cell_delegates sampleNb sampleEx [1] (by decide) ["setup"] (by decide)
     (.int 0)⟩

/-- C8: when the selector list contains at least one non-string element,
no tag resolution is performed: `execute_cell` behaves exactly as the
direct-indexing loop applied to the raw selector list, string elements
included. -/
theorem claim_C8_mixed_list_direct_indexing
    (nb : Notebook) (ex : Cell → Int → Cell) (vs : List PyVal)
    (h : ∃ x ∈ vs, PyVal.isStr x = false) :
    executeCell nb ex (.list vs) = executeDirect nb ex vs := by
  have hall : vs.all PyVal.isStr = false := by
    rcases h with ⟨x, hx, hfx⟩
    exact List.all_eq_false.mpr ⟨x, hx, by simp [hfx]⟩
  simp only [executeCell, hall, Bool.false_eq_true, if_false, executeDirect]

/-- C8 witness: the mixed list `[0, "compute"]` on the fixture is
executed by direct indexing (and hence raises `TypeError` at the string
element, with cell 0 already executed). -/
theorem claim_C8_witness :
    (∃ x ∈ ([.int 0, .str "compute"] : List PyVal), PyVal.isStr x = false) ∧
      executeCell sampleNb sampleEx (.list [.int 0, .str "compute"]) =
        executeDirect sampleNb sampleEx [.int 0, .str "compute"] :=
  ⟨by decide,
   claim_C8_mixed_list_direct_indexing sampleNb sampleEx [.int 0, .str "compute"] (by decide)⟩

/-- C9: `inject` raises `TypeError` for an argument that is neither a
string nor a `Callable`, before any cell is created or executed (the
executor-call trace is empty, whatever `args` and `prerun` are), and
`_get_cell_index` raises `TypeError` for a tag that is neither an `int`
nor a `str` (leaving the notebook unchanged). -/
theorem claim_C9_type_errors
    (nb : Notebook) (ex : Cell → Int → Cell) (ty ty2 : String)
    (args : Option (List PyObj)) (prerun : Option ExecArg) :
    inject nb ex (.other ty) args prerun =
        (.error (.typeError "can only inject function or code block as str"), []) ∧
      getCellIndex nb (.other ty2) = (.error (.typeError "expected tag as str"), nb) :=
  ⟨rfl, rfl⟩

/-- C10: the read-only operations — tag resolution, reading a cell's
text output, and extracting `execute_result` data from outputs — leave
the notebook document (respectively the outputs list) unchanged on
every input, whether they return or raise. -/
theorem claim_C10_read_only_frame
    (nb : Notebook) (tag v : PyVal) (outs : Option (List Output)) :
    (getCellIndex nb tag).2 = nb ∧ (cellOutputText nb v).2 = nb ∧
      (executeResult outs).2 = outs := by
  refine ⟨?_, ?_, ?_⟩
  · cases tag with
    | int i => rfl
    | str s => cases h : findTagLoop nb.cells s 0 <;> simp [getCellIndex, h]
    | other t => rfl
  · cases v with
    | str s =>
      cases hg : (getCellIndex nb (.str s)).1 with
      | error e => simp [cellOutputText, hg, Except.map]
      | ok i =>
        cases hp : pyListGet nb.cells (PyVal.int i) with
        | error e => simp [cellOutputText, hg, hp, Except.map]
        | ok p =>
          rcases p with ⟨c, j⟩
          simp [cellOutputText, hg, hp, Except.map]
    | int i =>
      cases hp : pyListGet nb.cells (PyVal.int i) with
      | error e => simp [cellOutputText, hp]
      | ok p =>
        rcases p with ⟨c, j⟩
        simp [cellOutputText, hp]
    | other t =>
      cases hp : pyListGet nb.cells (PyVal.other t) with
      | error e => simp [cellOutputText, hp]
      | ok p =>
        rcases p with ⟨c, j⟩
        simp [cellOutputText, hp]
  · cases outs <;> rfl

end Testbook
